import Mathlib

/-!
Shallow embedding of the tool-orchestration loop implemented in
`src/agent.py` (`ToolRegistry`, `ReactAgent`), together with proofs of the
specification claims about it.

Modelling conventions:
* Python/JSON data that flows through the agent is modelled by the inductive
  type `JValue`.  Mappings are association lists in insertion order (Python
  dicts preserve insertion order); the keys of a genuine dict are unique.
* JSON numbers are kept as their source tokens (e.g. the token "1" or
  "2.5e3").  Equality of values is structural; Python float equality (NaN,
  1 == 1.0) is outside the model, no claim depends on it.
* `json.loads` is modelled by an executable recursive-descent parser
  (`json_loads`) following Python's default behaviour: strict strings,
  no leading zeros in numbers, the constants NaN / Infinity / -Infinity
  accepted as number tokens.  Strings are Unicode-scalar sequences, so a
  lone-surrogate escape is rejected rather than produced.
* `subprocess.run` is an external effect; it is modelled by an explicit
  function argument `ex : List String → CompletedProcess` giving the
  captured outcome of running a command.
* Python exceptions that the agent code can actually raise on the modelled
  paths (`AttributeError` from `plan.get` on a non-dict, `TypeError` from a
  dict lookup with an unhashable key) are modelled with `Except PyErr`.
-/

/-- A JSON / Python value as it flows through the agent: the payload shapes
`str`, `num` (kept as its numeric source token), `bool`, `null` (Python
`None`), `arr` (list) and `obj` (dict as insertion-ordered key/value list). -/
inductive JValue where
  | str (s : String)
  | num (tok : String)
  | bool (b : Bool)
  | null
  | arr (items : List JValue)
  | obj (kvs : List (String × JValue))

/-- Lookup in an insertion-ordered dict (first matching key; keys of a real
Python dict are unique). -/
def pyDictGet {α : Type} (kvs : List (String × α)) (key : String) : Option α :=
  match kvs with
  | [] => none
  | (k, v) :: rest => if k = key then some v else pyDictGet rest key

/-- Key membership test of a Python dict (`key in d`). -/
def pyDictHasKey {α : Type} (kvs : List (String × α)) (key : String) : Bool :=
  match kvs with
  | [] => false
  | (k, _) :: rest => if k = key then true else pyDictHasKey rest key

/-- `d[key] = value` on a Python dict: replaces the value in place when the
key is present (keeping its original position), appends otherwise. -/
def pyDictInsert {α : Type} (kvs : List (String × α)) (key : String) (v : α) :
    List (String × α) :=
  match kvs with
  | [] => [(key, v)]
  | (k, w) :: rest =>
    if k = key then (key, v) :: rest else (k, w) :: pyDictInsert rest key v

/-- The whitespace characters removed by Python `str.strip()`: the full
Unicode whitespace set of CPython (`Py_UNICODE_ISSPACE`) — tab through
carriage return, the information separators U+001C-U+001F, space, next line
U+0085, no-break space U+00A0, Ogham space mark U+1680, the U+2000-U+200A
spaces, line and paragraph separators U+2028/U+2029, narrow no-break space
U+202F, medium mathematical space U+205F and ideographic space U+3000. -/
def isPySpace (c : Char) : Bool :=
  let n := c.toNat
  (9 ≤ n && n ≤ 13) || (28 ≤ n && n ≤ 31) || n = 32 || n = 0x85 || n = 0xA0 ||
    n = 0x1680 || (0x2000 ≤ n && n ≤ 0x200A) || n = 0x2028 || n = 0x2029 ||
    n = 0x202F || n = 0x205F || n = 0x3000

/-- Python `str.strip()`: drop leading and trailing whitespace. -/
def pyStripList (l : List Char) : List Char :=
  ((l.dropWhile isPySpace).reverse.dropWhile isPySpace).reverse

/-- Python `str.strip()` on strings. -/
def pyStrip (s : String) : String :=
  String.mk (pyStripList s.toList)

/-- The single-quote character, used by Python `repr` of strings. -/
def pySQuote : String := String.singleton (Char.ofNat 39)

/-- Left brace / right brace as characters (Python dict repr, JSON). -/
def lbraceChar : Char := Char.ofNat 123

/-- Right brace character. -/
def rbraceChar : Char := Char.ofNat 125

mutual
/-- Python `repr` of a JSON value (used by `str` on lists and dicts).
Approximation: strings are always rendered in single quotes without escape
processing, number tokens verbatim; no claim depends on this rendering. -/
def pyRepr : JValue → String
  | .str s => pySQuote ++ s ++ pySQuote
  | .num tok => tok
  | .bool true => "True"
  | .bool false => "False"
  | .null => "None"
  | .arr items => "[" ++ String.intercalate ", " (pyReprList items) ++ "]"
  | .obj kvs =>
    String.singleton lbraceChar ++ String.intercalate ", " (pyReprObj kvs) ++
      String.singleton rbraceChar

/-- `repr` of each element of a list. -/
def pyReprList : List JValue → List String
  | [] => []
  | v :: vs => pyRepr v :: pyReprList vs

/-- `repr` of each key/value pair of a dict. -/
def pyReprObj : List (String × JValue) → List String
  | [] => []
  | (k, v) :: kvs => (pySQuote ++ k ++ pySQuote ++ ": " ++ pyRepr v) :: pyReprObj kvs
end

/-- Python `str()` of a JSON value: a string is itself, everything else its
`repr` (for numbers the model keeps the source token; exact for the integer
tokens appearing in the claims). -/
def pyStr : JValue → String
  | .str s => s
  | v => pyRepr v

/-- Python truthiness of a numeric token: zero iff every digit of the
mantissa (the part before any exponent marker) is 0; the non-numeric tokens
NaN / Infinity / -Infinity are truthy. -/
def numTokTruthy (tok : String) : Bool :=
  if tok = "NaN" || tok = "Infinity" || tok = "-Infinity" then true
  else
    (tok.toList.takeWhile (fun c => c ≠ 'e' && c ≠ 'E')).any
      (fun c => '1' ≤ c && c ≤ '9')

/-- Python truthiness of a value. -/
def pyTruthy : JValue → Bool
  | .str s => !s.isEmpty
  | .num tok => numTokTruthy tok
  | .bool b => b
  | .null => false
  | .arr items => !items.isEmpty
  | .obj kvs => !kvs.isEmpty

/-- Python truthiness of an `Optional` value (`None` is falsy). -/
def pyTruthyOpt : Option JValue → Bool
  | none => false
  | some v => pyTruthy v

/-! ### A model of Python `json.loads` (default options) -/

/-- JSON whitespace skipped by the parser (space, tab, newline, return). -/
def isJsonWs (c : Char) : Bool :=
  c = ' ' || c = '\t' || c = '\n' || c = '\r'

/-- Skip JSON whitespace. -/
def skipWs (cs : List Char) : List Char := cs.dropWhile isJsonWs

/-- ASCII digit test, via code points. -/
def isDigitChar (c : Char) : Bool :=
  48 ≤ c.toNat && c.toNat ≤ 57

/-- Value of one hexadecimal digit, via code points (digits, then the
lowercase letter range, then the uppercase letter range). -/
def hexVal (c : Char) : Option Nat :=
  let n := c.toNat
  if 48 ≤ n && n ≤ 57 then some (n - 48)
  else if 97 ≤ n && n ≤ 102 then some (n - 87)
  else if 65 ≤ n && n ≤ 70 then some (n - 55)
  else none

/-- Four hexadecimal digits of a \u escape. -/
def parseHex4 (cs : List Char) : Option (Nat × List Char) :=
  match cs with
  | a :: b :: c :: d :: rest =>
    match hexVal a, hexVal b, hexVal c, hexVal d with
    | some va, some vb, some vc, some vd =>
      some (va * 4096 + (vb * 256 + (vc * 16 + vd)), rest)
    | _, _, _, _ => none
  | _ => none

/-- Body of a JSON string literal, after the opening quote: returns the
decoded characters and the input after the closing quote.  Default (strict)
mode: raw control characters are rejected; surrogate pairs in \u escapes are
combined; a lone surrogate is rejected (Python would keep it, but it is not a
Unicode scalar value and no claim exercises it). -/
def parseStringBody : Nat → List Char → Option (List Char × List Char)
  | 0, _ => none
  | fuel + 1, cs =>
    match cs with
    | [] => none
    | c :: rest =>
      if c = '"' then some ([], rest)
      else if c = '\\' then
        match rest with
        | [] => none
        | e :: rest2 =>
          let simpleEsc : Option Char :=
            if e = '"' then some '"'
            else if e = '\\' then some '\\'
            else if e = '/' then some '/'
            else if e = 'b' then some (Char.ofNat 8)
            else if e = 'f' then some (Char.ofNat 12)
            else if e = 'n' then some '\n'
            else if e = 'r' then some '\r'
            else if e = 't' then some '\t'
            else none
          match simpleEsc with
          | some ch => (parseStringBody fuel rest2).map (fun p => (ch :: p.1, p.2))
          | none =>
            if e = 'u' then
              match parseHex4 rest2 with
              | none => none
              | some (n, rest3) =>
                if 0xD800 ≤ n ∧ n ≤ 0xDBFF then
                  match rest3 with
                  | '\\' :: 'u' :: rest4 =>
                    match parseHex4 rest4 with
                    | some (m, rest5) =>
                      if 0xDC00 ≤ m ∧ m ≤ 0xDFFF then
                        let cp := 0x10000 + (n - 0xD800) * 0x400 + (m - 0xDC00)
                        (parseStringBody fuel rest5).map
                          (fun p => (Char.ofNat cp :: p.1, p.2))
                      else none
                    | none => none
                  | _ => none
                else if 0xDC00 ≤ n ∧ n ≤ 0xDFFF then none
                else (parseStringBody fuel rest3).map
                  (fun p => (Char.ofNat n :: p.1, p.2))
            else none
      else if c.toNat < 0x20 then none
      else (parseStringBody fuel rest).map (fun p => (c :: p.1, p.2))

/-- Longest digit run at the front. -/
def takeDigits (cs : List Char) : List Char × List Char :=
  (cs.takeWhile isDigitChar, cs.dropWhile isDigitChar)

/-- Integer part of a JSON number: 0, or a nonzero digit followed by digits
(leading zeros are not allowed). -/
def parseIntPart (cs : List Char) : Option (List Char × List Char) :=
  match cs with
  | [] => none
  | c :: rest =>
    if c = '0' then some ([c], rest)
    else if isDigitChar c then
      some (c :: (takeDigits rest).1, (takeDigits rest).2)
    else none

/-- Optional fraction part, dot followed by at least one digit. -/
def parseFracPart (cs : List Char) : Option (List Char × List Char) :=
  match cs with
  | '.' :: rest =>
    match takeDigits rest with
    | ([], _) => none
    | (ds, rest2) => some ('.' :: ds, rest2)
  | _ => some ([], cs)

/-- Optional exponent part, e/E, optional sign, at least one digit. -/
def parseExpPart (cs : List Char) : Option (List Char × List Char) :=
  match cs with
  | c :: rest =>
    if c = 'e' || c = 'E' then
      match rest with
      | s :: rest2 =>
        if s = '+' || s = '-' then
          match takeDigits rest2 with
          | ([], _) => none
          | (ds, rest3) => some (c :: s :: ds, rest3)
        else
          match takeDigits rest with
          | ([], _) => none
          | (ds, rest3) => some (c :: ds, rest3)
      | [] => none
    else some ([], cs)
  | [] => some ([], cs)

/-- A JSON number, returned as its source token. -/
def parseNumberToken (cs : List Char) : Option (String × List Char) :=
  let sign : List Char × List Char :=
    match cs with
    | '-' :: rest => (['-'], rest)
    | _ => ([], cs)
  match parseIntPart sign.2 with
  | none => none
  | some (ip, cs2) =>
    match parseFracPart cs2 with
    | none => none
    | some (fp, cs3) =>
      match parseExpPart cs3 with
      | none => none
      | some (ep, cs4) => some (String.mk (sign.1 ++ ip ++ fp ++ ep), cs4)

/-- Strip a literal keyword from the front of the input. -/
def stripLit (lit : String) (cs : List Char) : Option (List Char) :=
  let l := lit.toList
  if l.isPrefixOf cs then some (cs.drop l.length) else none

mutual
/-- One JSON value (leading whitespace skipped), returning the remaining
input.  Follows Python's default scanner: objects, arrays, strings, the
keywords true/false/null, the constants NaN, Infinity and -Infinity, numbers. -/
def parseValue : Nat → List Char → Option (JValue × List Char)
  | 0, _ => none
  | fuel + 1, cs =>
    match skipWs cs with
    | [] => none
    | c :: rest =>
      if c = lbraceChar then parseObjectBody fuel rest
      else if c = '[' then parseArrayBody fuel rest
      else if c = '"' then
        (parseStringBody fuel rest).map (fun p => (JValue.str (String.mk p.1), p.2))
      else
        match stripLit "true" (c :: rest) with
        | some r => some (JValue.bool true, r)
        | none =>
        match stripLit "false" (c :: rest) with
        | some r => some (JValue.bool false, r)
        | none =>
        match stripLit "null" (c :: rest) with
        | some r => some (JValue.null, r)
        | none =>
        match stripLit "NaN" (c :: rest) with
        | some r => some (JValue.num "NaN", r)
        | none =>
        match stripLit "Infinity" (c :: rest) with
        | some r => some (JValue.num "Infinity", r)
        | none =>
        match stripLit "-Infinity" (c :: rest) with
        | some r => some (JValue.num "-Infinity", r)
        | none =>
          (parseNumberToken (c :: rest)).map (fun p => (JValue.num p.1, p.2))

/-- Array body after the opening bracket. -/
def parseArrayBody : Nat → List Char → Option (JValue × List Char)
  | 0, _ => none
  | fuel + 1, cs =>
    match skipWs cs with
    | [] => none
    | c :: rest =>
      if c = ']' then some (JValue.arr [], rest)
      else
        (parseArrayItems fuel (c :: rest)).map (fun p => (JValue.arr p.1, p.2))

/-- One or more comma-separated array elements, then the closing bracket. -/
def parseArrayItems : Nat → List Char → Option (List JValue × List Char)
  | 0, _ => none
  | fuel + 1, cs =>
    match parseValue fuel cs with
    | none => none
    | some (v, rest) =>
      match skipWs rest with
      | [] => none
      | c :: rest2 =>
        if c = ',' then
          (parseArrayItems fuel rest2).map (fun p => (v :: p.1, p.2))
        else if c = ']' then some ([v], rest2)
        else none

/-- Object body after the opening brace.  Pairs are inserted left to right
into a dict, so a duplicated key keeps its first position with its last
value, as in Python. -/
def parseObjectBody : Nat → List Char → Option (JValue × List Char)
  | 0, _ => none
  | fuel + 1, cs =>
    match skipWs cs with
    | [] => none
    | c :: rest =>
      if c = rbraceChar then some (JValue.obj [], rest)
      else
        (parseObjectItems fuel (c :: rest)).map
          (fun p =>
            (JValue.obj (p.1.foldl (fun acc kv => pyDictInsert acc kv.1 kv.2) []),
             p.2))

/-- One or more comma-separated key/value members, then the closing brace. -/
def parseObjectItems : Nat → List Char → Option (List (String × JValue) × List Char)
  | 0, _ => none
  | fuel + 1, cs =>
    match skipWs cs with
    | [] => none
    | c :: rest =>
      if c = '"' then
        match parseStringBody fuel rest with
        | none => none
        | some (key, rest2) =>
          match skipWs rest2 with
          | ':' :: rest3 =>
            match parseValue fuel rest3 with
            | none => none
            | some (v, rest4) =>
              match skipWs rest4 with
              | [] => none
              | c2 :: rest5 =>
                if c2 = ',' then
                  (parseObjectItems fuel rest5).map
                    (fun p => ((String.mk key, v) :: p.1, p.2))
                else if c2 = rbraceChar then some ([(String.mk key, v)], rest5)
                else none
          | _ => none
      else none
end

/-- Model of `json.loads`: parse one value, allow trailing whitespace,
reject any other trailing input; `none` models `json.JSONDecodeError`. -/
def json_loads (s : String) : Option JValue :=
  let cs := s.toList
  match parseValue (2 * cs.length + 2) cs with
  | some (v, rest) => if (skipWs rest).isEmpty then some v else none
  | none => none

/-! ### Data model of `agent.py` -/

/-- `ToolArgument` dataclass (`agent.py` lines 18-23). -/
structure ToolArgument where
  name : String
  option : Option String
  description : String
  required : Bool

/-- `Tool` dataclass (`agent.py` lines 26-31). -/
structure Tool where
  name : String
  description : String
  script_path : String
  arguments : List ToolArgument

/-- One record of the tool configuration source, at the record level of §6
of the specification: the JSON file reading and the per-field defaulting of
`ToolRegistry.load_tools` (lines 46-55) are applied, so `description`
defaults to the empty string, `option` to absent and `required` to false
when missing from the file. -/
structure ToolRecord where
  name : String
  description : String
  script_path : String
  arguments : List ToolArgument

/-- The `Tool` built from one configuration record (`agent.py` lines 56-61). -/
def tool_of_record (r : ToolRecord) : Tool :=
  ⟨r.name, r.description, r.script_path, r.arguments⟩

/-- `ToolRegistry.load_tools` (`agent.py` lines 41-64): each record is
turned into a `Tool` and stored with `self.tools[tool.name] = tool`; the
function is total, there is no check for a repeated name, so a later record
silently replaces an earlier one with the same name. -/
def load_tools (items : List ToolRecord) : List (String × Tool) :=
  items.foldl (fun acc item => pyDictInsert acc item.name (tool_of_record item)) []

/-- The outcome of `subprocess.run(command, capture_output=True, text=True)`
for one invocation: exit status and captured standard output / error. -/
structure CompletedProcess where
  returncode : Int
  stdout : String
  stderr : String

/-- What `ReactAgent._invoke_tool_command` decides to do before any process
is started: short-circuit with the missing-required-arguments message, or
run a command line. -/
inductive InvokeResult where
  | missing (msg : String)
  | run (command : List String)

/-- The command-line tokens contributed by one payload value (`agent.py`
lines 232-235 and 239-242): a list value expands to one `str(item)` token
per element, anything else is a single `str(value)` token. -/
def valueTokens (v : JValue) : List String :=
  match v with
  | .arr items => items.map pyStr
  | v => [pyStr v]

/-- The names of required schema arguments absent from a structured payload,
in schema order (`agent.py` lines 216-220). -/
def missing_arguments (tool : Tool) (kvs : List (String × JValue)) : List String :=
  (tool.arguments.filter
    (fun a => a.required && !pyDictHasKey kvs a.name)).map (fun a => a.name)

/-- Command construction of `ReactAgent._invoke_tool_command` (`agent.py`
lines 208-248), up to the point where the process would be started.
The command starts `["python", tool.script_path]`; a structured payload is
checked for missing required arguments and then contributes, in schema
order, the option token (when the option string is truthy) followed by the
value tokens for each schema argument present in the payload, and after
those the tokens of every payload key that is not a schema argument name, in
payload order; a list payload contributes one token per element; any other
payload contributes a single token when truthy and nothing when falsy. -/
def invoke_tool_command (tool : Tool) (normalized_input : JValue) : InvokeResult :=
  let command : List String := ["python", tool.script_path]
  match normalized_input with
  | .obj kvs =>
    match missing_arguments tool kvs with
    | _ :: _ =>
      .missing ("Missing required arguments: " ++
        String.intercalate ", " (missing_arguments tool kvs))
    | [] =>
      let recognized := tool.arguments.map (fun a => a.name)
      let schemaTokens := tool.arguments.foldl
        (fun acc a =>
          match pyDictGet kvs a.name with
          | none => acc
          | some value =>
            acc ++
              (match a.option with
               | some o => if o.isEmpty then [] else [o]
               | none => []) ++
              valueTokens value)
        []
      let extraTokens := kvs.foldl
        (fun acc kv =>
          if recognized.contains kv.1 then acc else acc ++ valueTokens kv.2)
        []
      .run (command ++ schemaTokens ++ extraTokens)
  | .arr items => .run (command ++ items.map pyStr)
  | v => if pyTruthy v then .run (command ++ [pyStr v]) else .run command

/-- Result selection after the process ran (`agent.py` lines 249-255):
trimmed standard error on non-zero exit status, trimmed standard output
otherwise. -/
def process_observation (completed : CompletedProcess) : String :=
  if completed.returncode ≠ 0 then pyStrip completed.stderr
  else pyStrip completed.stdout

/-- `ReactAgent._invoke_tool_command` end to end, with the external process
modelled by `ex`: the missing-arguments message short-circuits without
consulting `ex`; otherwise the built command is run and its captured output
selected by exit status. -/
def invoke_observation (tool : Tool) (normalized_input : JValue)
    (ex : List String → CompletedProcess) : String :=
  match invoke_tool_command tool normalized_input with
  | .missing msg => msg
  | .run command => process_observation (ex command)

/-- `ReactAgent._normalize_action_input` (`agent.py` lines 311-330): a
string is stripped; an empty result becomes the empty dict, otherwise the
string is parsed as JSON, keeping the parsed value on success and the
stripped string on failure; every non-string value passes through
unchanged. -/
def normalize_action_input (action_input : JValue) : JValue :=
  match action_input with
  | .str s =>
    let trimmed := pyStrip s
    if trimmed.isEmpty then .obj []
    else
      match json_loads trimmed with
      | some parsed => parsed
      | none => .str trimmed
  | other => other

/-- The degraded plan built by `ReactAgent.plan_action` when the reply text
is not valid JSON (`agent.py` lines 300-307). -/
def fallback_plan (content : String) : JValue :=
  .obj [("thought", .str content), ("action", .str ""),
        ("action_input", .str ""), ("is_final", .bool true),
        ("final_answer", .str content)]

/-- The parsing tail of `ReactAgent.plan_action` (`agent.py` lines 298-309):
the reply text is parsed with `json.loads`; only a `JSONDecodeError` is
caught and replaced by the degraded plan, any successfully parsed value is
returned as the plan unchanged. -/
def plan_of_content (content : String) : JValue :=
  match json_loads content with
  | some plan => plan
  | none => fallback_plan content

/-! ### `json.dumps` (used for history entries) -/

/-- The lowercase hexadecimal digit for a value below 16, via code points. -/
def hexDigitChar (n : Nat) : Char :=
  if n < 10 then Char.ofNat (48 + n) else Char.ofNat (87 + n)

/-- Four lowercase hex digits of a code unit. -/
def toHex4 (n : Nat) : List Char :=
  [hexDigitChar (n / 4096 % 16), hexDigitChar (n / 256 % 16),
   hexDigitChar (n / 16 % 16), hexDigitChar (n % 16)]

/-- `json.dumps` escaping of one character with `ensure_ascii=True`:
backslash escapes, \uXXXX for control and non-ASCII characters (surrogate
pairs above the basic plane). -/
def dumpChar (c : Char) : List Char :=
  if c = '"' then ['\\', '"']
  else if c = '\\' then ['\\', '\\']
  else if c = '\n' then ['\\', 'n']
  else if c = '\r' then ['\\', 'r']
  else if c = '\t' then ['\\', 't']
  else if c = Char.ofNat 8 then ['\\', 'b']
  else if c = Char.ofNat 12 then ['\\', 'f']
  else if c.toNat < 0x20 || c.toNat > 0x7e then
    if c.toNat ≤ 0xffff then '\\' :: 'u' :: toHex4 c.toNat
    else
      let v := c.toNat - 0x10000
      ('\\' :: 'u' :: toHex4 (0xD800 + v / 0x400)) ++
        ('\\' :: 'u' :: toHex4 (0xDC00 + v % 0x400))
  else [c]

/-- A JSON string literal as written by `json.dumps`. -/
def dumpString (s : String) : String :=
  "\"" ++ String.mk (s.toList.foldr (fun c acc => dumpChar c ++ acc) []) ++ "\""

mutual
/-- `json.dumps` with its default separators and `ensure_ascii=True`
(numbers are written as their source tokens; the claims only depend on how
many history entries exist, not on their text). -/
def json_dumps : JValue → String
  | .str s => dumpString s
  | .num tok => tok
  | .bool true => "true"
  | .bool false => "false"
  | .null => "null"
  | .arr items => "[" ++ String.intercalate ", " (jsonDumpsList items) ++ "]"
  | .obj kvs =>
    String.singleton lbraceChar ++ String.intercalate ", " (jsonDumpsObj kvs) ++
      String.singleton rbraceChar

/-- Serialized elements of a list. -/
def jsonDumpsList : List JValue → List String
  | [] => []
  | v :: vs => json_dumps v :: jsonDumpsList vs

/-- Serialized members of a dict. -/
def jsonDumpsObj : List (String × JValue) → List String
  | [] => []
  | (k, v) :: kvs => (dumpString k ++ ": " ++ json_dumps v) :: jsonDumpsObj kvs
end

/-! ### Loop controller (`ReactAgent.execute_tool`, `ReactAgent.run`) -/

/-- The Python exceptions the loop can actually raise on the modelled paths:
`AttributeError` from calling `.get` on a plan that is not a dict,
`TypeError` from looking up an unhashable key in the tool registry. -/
inductive PyErr where
  | attributeError
  | typeError
deriving DecidableEq

/-- `plan.get(key)`: a dict lookup returning `None` when absent, an
`AttributeError` when the plan is not a dict. -/
def pyGet (v : JValue) (key : String) : Except PyErr (Option JValue) :=
  match v with
  | .obj kvs => .ok (pyDictGet kvs key)
  | _ => .error .attributeError

/-- `self.tools.get(tool_name)` where `tool_name` is whatever value the plan
supplied: lists and dicts are unhashable (`TypeError`); any other value is
hashable but only a string can equal a string key of the registry. -/
def registry_get (tools : List (String × Tool)) (key : JValue) :
    Except PyErr (Option Tool) :=
  match key with
  | .arr _ => .error .typeError
  | .obj _ => .error .typeError
  | .str s => .ok (pyDictGet tools s)
  | _ => .ok none

/-- `ReactAgent.execute_tool` (`agent.py` lines 332-342): unknown tool names
short-circuit with the fixed message; otherwise the action input is
normalized and the tool invoked. -/
def execute_tool (tools : List (String × Tool)) (tool_name : JValue)
    (action_input : JValue) (ex : List String → CompletedProcess) :
    Except PyErr String :=
  match registry_get tools tool_name with
  | .error e => .error e
  | .ok none => .ok ("Unknown tool: " ++ pyStr tool_name)
  | .ok (some tool) =>
    .ok (invoke_observation tool (normalize_action_input action_input) ex)

/-- The fixed message returned when the turn budget is exhausted
(`agent.py` lines 367-369). -/
def turn_budget_message : String :=
  "最大試行回数に達したため目的を完遂できませんでした。"

/-- What one call of `ReactAgent.run` produces in the model: the returned
value (the code returns `plan.get("final_answer", "")`, which need not be a
string), the final contents of `history`, and how many planning cycles were
performed. -/
structure RunOutcome where
  answer : JValue
  history : List String
  cycles : Nat

/-- The planning step as the loop sees it: `plan_action` reduced to a
function from (objective, history, observation) to the parsed plan value.
In the code this is the completion backend composed with `plan_of_content`. -/
def Planner : Type :=
  String → List String → Option String → JValue

/-- The loop of `ReactAgent.run` (`agent.py` lines 344-371), by recursion on
the remaining turns: plan; on a truthy `is_final` return
`plan.get("final_answer", "")`; otherwise execute the planned tool, append
the serialized history entry and continue; when no turns remain return the
fixed exhaustion message. -/
def runFrom (tools : List (String × Tool)) (planner : Planner)
    (ex : List String → CompletedProcess) (objective : String) :
    Nat → List String → Option String → Except PyErr RunOutcome
  | 0, history, _ => .ok ⟨.str turn_budget_message, history, 0⟩
  | turnsLeft + 1, history, observation =>
    let plan := planner objective history observation
    match pyGet plan "is_final" with
    | .error e => .error e
    | .ok isFinal =>
      if pyTruthyOpt isFinal then
        match pyGet plan "final_answer" with
        | .error e => .error e
        | .ok finalAnswer => .ok ⟨finalAnswer.getD (.str ""), history, 1⟩
      else
        match pyGet plan "action" with
        | .error e => .error e
        | .ok act =>
          let action := act.getD (.str "")
          match pyGet plan "action_input" with
          | .error e => .error e
          | .ok ai =>
            let action_input := ai.getD (.str "")
            match execute_tool tools action action_input ex with
            | .error e => .error e
            | .ok observation2 =>
              match pyGet plan "thought" with
              | .error e => .error e
              | .ok thought =>
                let entry := json_dumps (.obj
                  [("thought", thought.getD .null), ("action", action),
                   ("action_input", action_input),
                   ("observation", .str observation2)])
                match runFrom tools planner ex objective turnsLeft
                    (history ++ [entry]) (some observation2) with
                | .error e => .error e
                | .ok r => .ok ⟨r.answer, r.history, r.cycles + 1⟩

/-- `ReactAgent.run`: start with empty history and no observation and
iterate for at most `max_turns` turns. -/
def run (tools : List (String × Tool)) (planner : Planner)
    (ex : List String → CompletedProcess) (max_turns : Nat) (objective : String) :
    Except PyErr RunOutcome :=
  runFrom tools planner ex objective max_turns [] none

/-- The last configuration record with a given name, scanning left to
right (the statement-side characterisation of the later definition
silently replacing the earlier). -/
def last_record_named (items : List ToolRecord) (name : String) : Option ToolRecord :=
  items.foldl (fun acc it => if it.name = name then some it else acc) none

/-- A plan value that keeps the loop going and does not crash it: a mapping
whose `is_final` entry is absent or falsy and whose `action` entry (the
empty string when absent) is a hashable value, so that the registry lookup
raises no `TypeError`. -/
def non_final_plan (p : JValue) : Bool :=
  match p with
  | .obj kvs =>
    !pyTruthyOpt (pyDictGet kvs "is_final") &&
      (match (pyDictGet kvs "action").getD (.str "") with
       | .arr _ => false
       | .obj _ => false
       | _ => true)
  | _ => false

/-! ### Helper lemmas -/

theorem dropWhile_head?_false {α : Type} (p : α → Bool) (l : List α) :
    ∀ x, (l.dropWhile p).head? = some x → p x = false := by
  induction l with
  | nil => intro x h; simp [List.dropWhile] at h
  | cons a t ih =>
    intro x h
    by_cases hp : p a
    · rw [List.dropWhile_cons_of_pos hp] at h
      exact ih x h
    · rw [List.dropWhile_cons_of_neg hp] at h
      simp only [List.head?_cons, Option.some.injEq] at h
      subst h
      exact Bool.eq_false_iff.mpr hp

theorem dropWhile_eq_self_of_head {α : Type} (p : α → Bool) (l : List α)
    (h : ∀ x, l.head? = some x → p x = false) : l.dropWhile p = l := by
  cases l with
  | nil => rfl
  | cons a t =>
    have ha : p a = false := h a rfl
    exact List.dropWhile_cons_of_neg (by simp [ha])

theorem dropWhile_getLast? {α : Type} (p : α → Bool) (l : List α) :
    l.dropWhile p = [] ∨ (l.dropWhile p).getLast? = l.getLast? := by
  induction l with
  | nil => exact Or.inl rfl
  | cons a t ih =>
    by_cases hp : p a
    · rw [List.dropWhile_cons_of_pos hp]
      rcases ih with h | h
      · exact Or.inl h
      · cases t with
        | nil => exact Or.inl (by simp [List.dropWhile])
        | cons b u => exact Or.inr (by rw [h, List.getLast?_cons_cons])
    · rw [List.dropWhile_cons_of_neg hp]
      exact Or.inr rfl

theorem pyStripList_idem (l : List Char) : pyStripList (pyStripList l) = pyStripList l := by
  unfold pyStripList
  set m := l.dropWhile isPySpace with hm
  set q := m.reverse.dropWhile isPySpace with hq
  have hmhead : ∀ x, m.head? = some x → isPySpace x = false :=
    dropWhile_head?_false isPySpace l
  have hqhead : ∀ x, q.head? = some x → isPySpace x = false :=
    dropWhile_head?_false isPySpace m.reverse
  have h1 : q.reverse.dropWhile isPySpace = q.reverse := by
    apply dropWhile_eq_self_of_head
    intro x hx
    rcases dropWhile_getLast? isPySpace m.reverse with h | h
    · rw [← hq] at h
      rw [h] at hx
      simp at hx
    · rw [← hq] at h
      rw [List.head?_reverse, h, List.getLast?_reverse] at hx
      exact hmhead x hx
  rw [h1, List.reverse_reverse]
  have h2 : q.dropWhile isPySpace = q :=
    dropWhile_eq_self_of_head isPySpace q hqhead
  rw [h2]

theorem pyStrip_idem (s : String) : pyStrip (pyStrip s) = pyStrip s := by
  unfold pyStrip
  rw [show (String.mk (pyStripList s.toList)).toList = pyStripList s.toList from rfl,
    pyStripList_idem]

theorem pyDictGet_insert {α : Type} (kvs : List (String × α)) (k key : String) (v : α) :
    pyDictGet (pyDictInsert kvs k v) key
      = if k = key then some v else pyDictGet kvs key := by
  induction kvs with
  | nil => simp [pyDictInsert, pyDictGet]
  | cons kv rest ih =>
    obtain ⟨k2, w⟩ := kv
    by_cases hk : k2 = k
    · subst hk
      simp only [pyDictInsert, if_pos rfl, pyDictGet]
      by_cases hkey : k2 = key
      · simp [hkey]
      · simp [hkey]
    · simp only [pyDictInsert, if_neg hk, pyDictGet]
      by_cases hkey : k2 = key
      · subst hkey
        have : ¬ k = k2 := fun h => hk h.symm
        simp [this]
      · simp [hkey, ih]

theorem load_tools_fold_aux (items : List ToolRecord) :
    ∀ (acc : List (String × Tool)) (accR : Option ToolRecord) (name : String),
      pyDictGet acc name = accR.map tool_of_record →
      pyDictGet
          (items.foldl (fun a it => pyDictInsert a it.name (tool_of_record it)) acc)
          name
        = (items.foldl (fun a it => if it.name = name then some it else a) accR).map
            tool_of_record := by
  induction items with
  | nil => intro acc accR name h; simpa using h
  | cons it rest ih =>
    intro acc accR name h
    simp only [List.foldl_cons]
    apply ih
    rw [pyDictGet_insert]
    by_cases hname : it.name = name
    · simp [hname]
    · simp [hname, h]

theorem execute_tool_ok (tools : List (String × Tool)) (a input : JValue)
    (ex : List String → CompletedProcess)
    (h : (match a with | .arr _ => false | .obj _ => false | _ => true) = true) :
    ∃ s, execute_tool tools a input ex = .ok s := by
  cases a with
  | arr items => simp at h
  | obj kvs => simp at h
  | str s =>
    cases hg : pyDictGet tools s with
    | none =>
      exact ⟨"Unknown tool: " ++ pyStr (JValue.str s),
        by simp [execute_tool, registry_get, hg]⟩
    | some tool =>
      exact ⟨invoke_observation tool (normalize_action_input input) ex,
        by simp [execute_tool, registry_get, hg]⟩
  | num tok => exact ⟨_, rfl⟩
  | bool b => exact ⟨_, rfl⟩
  | null => exact ⟨_, rfl⟩

theorem runFrom_all_nonfinal (tools : List (String × Tool)) (planner : Planner)
    (ex : List String → CompletedProcess) (objective : String)
    (h : ∀ history observation,
      non_final_plan (planner objective history observation) = true) :
    ∀ (n : Nat) (history : List String) (observation : Option String),
      ∃ hist2,
        runFrom tools planner ex objective n history observation
          = .ok ⟨.str turn_budget_message, hist2, n⟩ ∧
        hist2.length = history.length + n := by
  intro n
  induction n with
  | zero => intro history observation; exact ⟨history, rfl, by simp⟩
  | succ n ih =>
    intro history observation
    have hp := h history observation
    cases hplan : planner objective history observation with
    | str s => rw [hplan] at hp; simp [non_final_plan] at hp
    | num tok => rw [hplan] at hp; simp [non_final_plan] at hp
    | bool b => rw [hplan] at hp; simp [non_final_plan] at hp
    | null => rw [hplan] at hp; simp [non_final_plan] at hp
    | arr items => rw [hplan] at hp; simp [non_final_plan] at hp
    | obj kvs =>
      rw [hplan] at hp
      simp only [non_final_plan, Bool.and_eq_true, Bool.not_eq_true'] at hp
      obtain ⟨hfinal, haction⟩ := hp
      obtain ⟨obs, hobs⟩ :=
        execute_tool_ok tools ((pyDictGet kvs "action").getD (.str ""))
          ((pyDictGet kvs "action_input").getD (.str "")) ex haction
      obtain ⟨hist2, hrun, hlen⟩ :=
        ih (history ++
            [json_dumps (.obj
              [("thought", (pyDictGet kvs "thought").getD .null),
               ("action", (pyDictGet kvs "action").getD (.str "")),
               ("action_input", (pyDictGet kvs "action_input").getD (.str "")),
               ("observation", .str obs)])])
          (some obs)
      refine ⟨hist2, ?_, ?_⟩
      · simp only [runFrom, hplan, pyGet, hfinal, Bool.false_eq_true, if_false,
          hobs, hrun]
      · rw [hlen]; simp; omega

theorem runFrom_final_step (tools : List (String × Tool)) (planner : Planner)
    (ex : List String → CompletedProcess) (objective : String) (n : Nat)
    (history : List String) (observation : Option String)
    (kvs : List (String × JValue))
    (hplan : planner objective history observation = JValue.obj kvs)
    (hfinal : pyTruthyOpt (pyDictGet kvs "is_final") = true) :
    runFrom tools planner ex objective (n + 1) history observation
      = .ok ⟨(pyDictGet kvs "final_answer").getD (.str ""), history, 1⟩ := by
  simp only [runFrom, hplan, pyGet, hfinal, if_true]

/-! ### Claims -/

/-- C1: for a tool whose argument schema is
[(name "path", option "-p", required), (name "verbose", option "-v",
optional)] and the structured payload mapping path to "/tmp/f" and verbose
to "1", the built command is exactly the program tokens followed by
"-p", "/tmp/f", "-v", "1".  The specification's `invocation_path` is
realised by the code as the token pair `python <script_path>` (`agent.py`
line 214).  The second conjunct exhibits the remaining parts of the claim
on the same schema: a payload key outside the schema ("extra", here a
sequence value) is emitted after all schema arguments even though it sits
between them in payload order, and its sequence value expands to one token
per element. -/
theorem invoke_tool_command_argument_order
    (nm ds sp d1 d2 p v : String) :
    invoke_tool_command
        ⟨nm, ds, sp,
         [⟨"path", some "-p", d1, true⟩, ⟨"verbose", some "-v", d2, false⟩]⟩
        (.obj [("path", .str p), ("verbose", .str v)])
      = .run ["python", sp, "-p", p, "-v", v] ∧
    invoke_tool_command
        ⟨nm, ds, sp,
         [⟨"path", some "-p", d1, true⟩, ⟨"verbose", some "-v", d2, false⟩]⟩
        (.obj [("path", .str p), ("extra", .arr [.str "x", .str "y"]),
               ("verbose", .str v)])
      = .run ["python", sp, "-p", p, "-v", v, "x", "y"] := by
  constructor <;> rfl

/-- C2: for every tool and every structured (mapping) payload, if some
argument marked required in the schema has its name absent from the
payload's keys, `_invoke_tool_command` returns the message
"Missing required arguments: " followed by the comma-joined names of all
missing required arguments (in schema order), and this happens before any
process is started: the full invocation returns the same message for every
possible process behaviour `ex`. -/
theorem invoke_missing_required_short_circuit
    (tool : Tool) (kvs : List (String × JValue))
    (ex : List String → CompletedProcess)
    (h : ∃ a ∈ tool.arguments, a.required = true ∧ pyDictHasKey kvs a.name = false) :
    invoke_tool_command tool (.obj kvs)
      = .missing ("Missing required arguments: " ++
          String.intercalate ", " (missing_arguments tool kvs)) ∧
    invoke_observation tool (.obj kvs) ex
      = "Missing required arguments: " ++
          String.intercalate ", " (missing_arguments tool kvs) := by
  obtain ⟨a, ha, hreq, habs⟩ := h
  have hmem : a ∈ tool.arguments.filter
      (fun a => a.required && !pyDictHasKey kvs a.name) :=
    List.mem_filter.mpr ⟨ha, by simp [hreq, habs]⟩
  have hne : missing_arguments tool kvs ≠ [] := by
    unfold missing_arguments
    intro hnil
    rw [List.map_eq_nil_iff] at hnil
    rw [hnil] at hmem
    exact List.not_mem_nil a hmem
  cases hm : missing_arguments tool kvs with
  | nil => exact absurd hm hne
  | cons m ms =>
    constructor
    · simp only [invoke_tool_command, hm]
    · simp only [invoke_observation, invoke_tool_command, hm]

/-- C2 witness: the spec's own example, a tool requiring "path" invoked
with the payload mapping only "verbose"; the message is exactly
"Missing required arguments: path" for an arbitrary process behaviour. -/
theorem invoke_missing_required_short_circuit_witness :
    invoke_tool_command
        ⟨"t", "d", "s.py",
         [⟨"path", some "-p", "", true⟩, ⟨"verbose", some "-v", "", false⟩]⟩
        (.obj [("verbose", .str "1")])
      = .missing "Missing required arguments: path" ∧
    invoke_observation
        ⟨"t", "d", "s.py",
         [⟨"path", some "-p", "", true⟩, ⟨"verbose", some "-v", "", false⟩]⟩
        (.obj [("verbose", .str "1")]) (fun _ => ⟨0, "out", "err"⟩)
      = "Missing required arguments: path" :=
  invoke_missing_required_short_circuit
    ⟨"t", "d", "s.py",
     [⟨"path", some "-p", "", true⟩, ⟨"verbose", some "-v", "", false⟩]⟩
    [("verbose", .str "1")] (fun _ => ⟨0, "out", "err"⟩)
    ⟨⟨"path", some "-p", "", true⟩, by simp, rfl, rfl⟩

/-- C3: `_normalize_action_input` passes mappings and lists through
unchanged; a string is trimmed, an empty or all-whitespace string becomes
the empty payload (the code represents the spec's `Empty` as the empty
mapping, line 319), a string parsing as a structured-data literal (object,
array or scalar) becomes the parsed shape, and any other string becomes the
trimmed raw string.  The last conjunct is the general string equation; the
earlier ones are the claim's concrete instances. -/
theorem normalize_action_input_cases :
    (∀ kvs, normalize_action_input (.obj kvs) = .obj kvs) ∧
    (∀ items, normalize_action_input (.arr items) = .arr items) ∧
    normalize_action_input (.str "") = .obj [] ∧
    normalize_action_input (.str " \t ") = .obj [] ∧
    normalize_action_input (.str "\u00A0") = .obj [] ∧
    normalize_action_input (.str "\x7b\"a\":\"b\"\x7d") = .obj [("a", .str "b")] ∧
    normalize_action_input (.str "[1, 2]") = .arr [.num "1", .num "2"] ∧
    normalize_action_input (.str " 42 ") = .num "42" ∧
    normalize_action_input (.str "plain text") = .str "plain text" ∧
    (∀ s, normalize_action_input (.str s) =
      if (pyStrip s).isEmpty then .obj []
      else (json_loads (pyStrip s)).getD (.str (pyStrip s))) := by
  refine ⟨fun kvs => rfl, fun items => rfl, rfl, rfl, rfl, rfl, rfl, rfl, rfl, fun s => ?_⟩
  by_cases he : (pyStrip s).isEmpty
  · simp [normalize_action_input, he]
  · cases hj : json_loads (pyStrip s) with
    | none => simp [normalize_action_input, he, hj]
    | some v => simp [normalize_action_input, he, hj]

/-- C4, counterexample to the claim as stated: the reply text "[1]" parses
as structured data but does not yield a Plan-shaped (mapping) object, yet
`plan_action` does not degrade — it returns the parsed array unchanged
instead of the degraded Plan, because the code only catches
`json.JSONDecodeError` (`agent.py` line 300). -/
theorem plan_of_content_no_degrade_on_nonplan_parse :
    plan_of_content "[1]" = JValue.arr [JValue.num "1"] ∧
    plan_of_content "[1]" ≠ fallback_plan "[1]" := by
  refine ⟨rfl, fun h => ?_⟩
  rw [show plan_of_content "[1]" = JValue.arr [JValue.num "1"] from rfl] at h
  exact JValue.noConfusion h

/-- C4 as amended: degradation happens exactly when the reply text fails to
parse as structured data at all; for every such text `plan_action` builds
the Plan with thought and final_answer equal to the raw text, empty action
and a true is_final, and `run` then terminates on the first cycle returning
that text (with no tool executed and no history entry, for every registry,
process behaviour and turn budget). -/
theorem plan_of_content_degrades_on_parse_failure
    (content : String) (tools : List (String × Tool))
    (ex : List String → CompletedProcess) (objective : String) (n : Nat)
    (h : json_loads content = none) :
    plan_of_content content = fallback_plan content ∧
    run tools (fun _ _ _ => plan_of_content content) ex (n + 1) objective
      = .ok ⟨.str content, [], 1⟩ := by
  have h1 : plan_of_content content = fallback_plan content := by
    simp [plan_of_content, h]
  refine ⟨h1, ?_⟩
  unfold run
  have h2 := runFrom_final_step tools (fun _ _ _ => plan_of_content content) ex
    objective n [] none
    [("thought", .str content), ("action", .str ""), ("action_input", .str ""),
     ("is_final", .bool true), ("final_answer", .str content)]
    (by rw [h1]; rfl) rfl
  rw [h2]
  rfl

/-- C4 witness: the spec's literal backend reply "not json at all". -/
theorem plan_of_content_degrades_on_parse_failure_witness :
    json_loads "not json at all" = none ∧
    (plan_of_content "not json at all" = fallback_plan "not json at all" ∧
     run [] (fun _ _ _ => plan_of_content "not json at all")
         (fun _ => ⟨0, "", ""⟩) 1 "objective"
       = .ok ⟨.str "not json at all", [], 1⟩) :=
  ⟨rfl, plan_of_content_degrades_on_parse_failure "not json at all" []
    (fun _ => ⟨0, "", ""⟩) "objective" 0 rfl⟩

/-- C5: for every turn budget and every planner all of whose plans are
mappings with `is_final` absent or falsy (and a hashable `action`, which is
what the Plan data model guarantees — the name of a tool or the empty
string), `run` performs exactly `max_turns` planning cycles, returns the
fixed exhaustion message, and the history at that point has exactly
`max_turns` entries, for every registry and process behaviour. -/
theorem run_exhausts_turn_budget
    (tools : List (String × Tool)) (planner : Planner)
    (ex : List String → CompletedProcess) (objective : String) (max_turns : Nat)
    (h : ∀ history observation,
      non_final_plan (planner objective history observation) = true) :
    ∃ hist,
      run tools planner ex max_turns objective
        = .ok ⟨.str turn_budget_message, hist, max_turns⟩ ∧
      hist.length = max_turns := by
  obtain ⟨hist2, hrun, hlen⟩ :=
    runFrom_all_nonfinal tools planner ex objective h max_turns [] none
  exact ⟨hist2, hrun, by simpa using hlen⟩

/-- C5 witness: the spec's concrete test, three turns and a planner stub
that never sets `is_final`. -/
theorem run_exhausts_turn_budget_witness :
    ∃ hist,
      run [] (fun _ _ _ => .obj [("thought", .str "t"), ("action", .str "")])
          (fun _ => ⟨0, "", ""⟩) 3 "objective"
        = .ok ⟨.str turn_budget_message, hist, 3⟩ ∧
      hist.length = 3 :=
  run_exhausts_turn_budget []
    (fun _ _ _ => .obj [("thought", .str "t"), ("action", .str "")])
    (fun _ => ⟨0, "", ""⟩) "objective" 3 (fun _ _ => rfl)

/-- C6: for every registry, every tool name (string) not present in it,
every action input and every process behaviour, `execute_tool` returns
exactly "Unknown tool: " followed by the name.  The result does not depend
on the action input or on `ex` (both are universally quantified and absent
from the conclusion): the input is never normalized and no process is
started. -/
theorem execute_tool_unknown_name
    (tools : List (String × Tool)) (name : String) (input : JValue)
    (ex : List String → CompletedProcess)
    (h : pyDictGet tools name = none) :
    execute_tool tools (.str name) input ex = .ok ("Unknown tool: " ++ name) := by
  simp [execute_tool, registry_get, h, pyStr]

/-- C6 witness: the spec's example, an empty registry and the name
"does_not_exist". -/
theorem execute_tool_unknown_name_witness :
    pyDictGet ([] : List (String × Tool)) "does_not_exist" = none ∧
    execute_tool [] (.str "does_not_exist") (.str "anything")
        (fun _ => ⟨0, "out", "err"⟩)
      = .ok "Unknown tool: does_not_exist" :=
  ⟨rfl, execute_tool_unknown_name [] "does_not_exist" (.str "anything")
    (fun _ => ⟨0, "out", "err"⟩) rfl⟩

/-- C7: for every invocation that reaches the process (the builder chose to
run a command), the observation is the trimmed captured standard error when
the exit status is non-zero and the trimmed captured standard output
otherwise, for every possible process outcome; trimming the empty capture
yields the empty string, which is returned like any other observation (the
selection never fails). -/
theorem invoke_observation_by_exit_status
    (tool : Tool) (payload : JValue) (ex : List String → CompletedProcess)
    (cmd : List String)
    (h : invoke_tool_command tool payload = .run cmd) :
    invoke_observation tool payload ex
      = (if (ex cmd).returncode ≠ 0 then pyStrip (ex cmd).stderr
         else pyStrip (ex cmd).stdout) ∧
    pyStrip "" = "" := by
  constructor
  · simp only [invoke_observation, h, process_observation]
  · rfl

/-- C7 witness: a no-argument tool invoked with a raw string payload and a
failing process with empty stderr. -/
theorem invoke_observation_by_exit_status_witness :
    invoke_tool_command ⟨"t", "d", "s.py", []⟩ (.str "x")
      = .run ["python", "s.py", "x"] ∧
    (invoke_observation ⟨"t", "d", "s.py", []⟩ (.str "x")
        (fun _ => ⟨1, " out ", ""⟩)
      = (if (1 : Int) ≠ 0 then pyStrip "" else pyStrip " out ") ∧
     pyStrip "" = "") :=
  ⟨rfl, invoke_observation_by_exit_status ⟨"t", "d", "s.py", []⟩ (.str "x")
    (fun _ => ⟨1, " out ", ""⟩) ["python", "s.py", "x"] rfl⟩

/-- C8, counterexample to idempotence as claimed for all representable
inputs: the three-character string consisting of a quoted 1 normalizes to
the string "1" (a successful parse of a JSON string literal), but
normalizing that result again parses it as the number 1. -/
theorem normalize_action_input_not_idempotent :
    normalize_action_input (normalize_action_input (JValue.str "\"1\""))
      ≠ normalize_action_input (JValue.str "\"1\"") := by
  have h1 : normalize_action_input (JValue.str "\"1\"") = JValue.str "1" := rfl
  have h2 : normalize_action_input (JValue.str "1") = JValue.num "1" := rfl
  rw [h1, h2]
  intro h
  exact JValue.noConfusion h

/-- C8 as amended: `normalize` is idempotent on every representable input
except the strings whose trimmed form parses as a JSON string literal —
mappings, lists and all other values pass through unchanged, and for a
string the result is the empty mapping (stable), a parsed non-string value
(non-strings pass through), or the trimmed unparsable string (trimming is
idempotent and the parse keeps failing). -/
theorem normalize_action_input_idempotent_unless_string_literal
    (x : JValue)
    (h : ∀ s, x = JValue.str s → ∀ t, json_loads (pyStrip s) ≠ some (JValue.str t)) :
    normalize_action_input (normalize_action_input x) = normalize_action_input x := by
  cases x with
  | str s =>
    by_cases he : (pyStrip s).isEmpty
    · simp [normalize_action_input, he]
    · cases hj : json_loads (pyStrip s) with
      | none =>
        have h1 : normalize_action_input (JValue.str s) = JValue.str (pyStrip s) := by
          simp [normalize_action_input, he, hj]
        rw [h1]
        simp [normalize_action_input, pyStrip_idem, he, hj]
      | some v =>
        have h1 : normalize_action_input (JValue.str s) = v := by
          simp [normalize_action_input, he, hj]
        rw [h1]
        cases v with
        | str t => exact absurd hj (h s rfl t)
        | num tok => rfl
        | bool b => rfl
        | null => rfl
        | arr items => rfl
        | obj kvs => rfl
  | num tok => rfl
  | bool b => rfl
  | null => rfl
  | arr items => rfl
  | obj kvs => rfl

/-- C8 witness: idempotence at a mapping (trivially not a string). -/
theorem normalize_action_input_idempotent_witness :
    normalize_action_input (normalize_action_input (JValue.obj [("a", .str "b")]))
      = normalize_action_input (JValue.obj [("a", .str "b")]) :=
  normalize_action_input_idempotent_unless_string_literal
    (JValue.obj [("a", .str "b")]) (fun _s hs => JValue.noConfusion hs)

/-- C9: when the configuration source holds two or more records with the
same name, loading succeeds — `load_tools` is a total function, there is no
collision check — and the registry maps that name to the tool built from
the last record carrying it, the earlier ones being silently replaced. -/
theorem load_tools_duplicate_name_last_wins
    (items : List ToolRecord) (name : String)
    (_h : 2 ≤ (items.filter (fun it => it.name = name)).length) :
    pyDictGet (load_tools items) name
      = (last_record_named items name).map tool_of_record := by
  have := load_tools_fold_aux items [] none name rfl
  simpa [load_tools, last_record_named] using this

/-- C9 witness: two records named "dup"; the lookup yields the second. -/
theorem load_tools_duplicate_name_last_wins_witness :
    2 ≤ ([⟨"dup", "first", "a.py", []⟩,
          ⟨"dup", "second", "b.py", []⟩].filter
            (fun it : ToolRecord => it.name = "dup")).length ∧
    pyDictGet
        (load_tools [⟨"dup", "first", "a.py", []⟩, ⟨"dup", "second", "b.py", []⟩])
        "dup"
      = (last_record_named
          [⟨"dup", "first", "a.py", []⟩, ⟨"dup", "second", "b.py", []⟩]
          "dup").map tool_of_record :=
  ⟨by decide,
   load_tools_duplicate_name_last_wins
     [⟨"dup", "first", "a.py", []⟩, ⟨"dup", "second", "b.py", []⟩] "dup"
     (by decide)⟩

/-- C10: whenever the planner's plan for the current cycle is a mapping
whose `is_final` entry is truthy, the loop returns
`plan.get("final_answer", "")` — the final_answer value when the key is
present, the empty string when absent — with the history exactly as it was
(no entry appended) and one planning cycle used; the conclusion does not
mention the registry or the process behaviour `ex`, so no tool is executed
on that cycle. -/
theorem run_final_plan_returns_final_answer
    (tools : List (String × Tool)) (planner : Planner)
    (ex : List String → CompletedProcess) (objective : String) (n : Nat)
    (history : List String) (observation : Option String)
    (kvs : List (String × JValue))
    (hplan : planner objective history observation = JValue.obj kvs)
    (hfinal : pyTruthyOpt (pyDictGet kvs "is_final") = true) :
    runFrom tools planner ex objective (n + 1) history observation
      = .ok ⟨(pyDictGet kvs "final_answer").getD (.str ""), history, 1⟩ :=
  runFrom_final_step tools planner ex objective n history observation kvs
    hplan hfinal

/-- C10 witness: a final plan without a `final_answer` key returns the
empty string, leaving the prior history untouched. -/
theorem run_final_plan_returns_final_answer_witness :
    runFrom [] (fun _ _ _ => .obj [("is_final", .bool true)])
        (fun _ => ⟨0, "", ""⟩) "objective" 1 ["h0"] (some "obs")
      = .ok ⟨.str "", ["h0"], 1⟩ :=
  run_final_plan_returns_final_answer [] (fun _ _ _ => .obj [("is_final", .bool true)])
    (fun _ => ⟨0, "", ""⟩) "objective" 0 ["h0"] (some "obs")
    [("is_final", .bool true)] rfl rfl
